import Mathlib

/-!
# Verification of the 3D-Engine scene-graph and resource-caching core

Shallow embedding of the scene-graph / mesh-cache subsystem of the
`3D-Engine` repository (`src/main.cpp` and `src/versions/complex1.cpp`)
together with proofs and refutations of the specified properties.

Conventions of the embedding:
* C++ floats are modelled as `ℚ` (all claims are about exact field
  arithmetic: additions of deltas, copying, comparisons — no rounding is
  involved in any claimed property).
* Heap pointers (`Model*`, `Node*`) are modelled as `Nat` addresses; two
  references are identical iff the addresses are equal.
* Out-of-bounds `std::vector` indexing (undefined behaviour) is modelled
  by an `Option`-valued step returning `none`.
* The external loader `tinyobj::LoadObj` is an uninterpreted parameter
  `loader : String → Option ObjData`; the flattening loop that `GetModel`
  runs on its output is embedded faithfully.
-/

namespace Engine3D

/-- The `struct Model` of src/main.cpp (lines 21-28): flat vertex data plus a
`loaded` flag.  `complex1.cpp`'s `Model` is the same minus `texcoords`;
the common caching logic is identical, so one structure serves both.
The OpenGL `textureID` is a graphics-backend handle, out of the core. -/
structure Model where
  name : String
  vertices : List ℚ
  normals : List ℚ
  texcoords : List ℚ
  loaded : Bool
deriving Repr, DecidableEq

/-- One `tinyobj::index_t`: per-face-vertex indices into the attribute
arrays; `normal_index`/`texcoord_index` are negative when absent. -/
structure ObjIndex where
  vertex_index : Int
  normal_index : Int
  texcoord_index : Int
deriving Repr, DecidableEq

/-- One `tinyobj::shape_t`, keeping only `shape.mesh.indices` — the sole
field the flatten loop reads. -/
structure Shape where
  indices : List ObjIndex
deriving Repr

/-- The `tinyobj::attrib_t` record: the flat attribute arrays, modelled as total
index functions (the flatten loop reads them at `3*i+k` / `2*i+k`). -/
structure Attrib where
  vertices : Int → ℚ
  normals : Int → ℚ
  texcoords : Int → ℚ

/-- What a successful `tinyobj::LoadObj` call produces (the parts
`GetModel` consumes). -/
structure ObjData where
  attrib : Attrib
  shapes : List Shape

/-- Body of the per-index iteration of `GetModel`'s flatten loop
(src/main.cpp lines 132-147): always push the 3 position components;
push normals / texcoords only when the corresponding index is `≥ 0`. -/
def flattenIndex (attrib : Attrib) (m : Model) (index : ObjIndex) : Model :=
  let m := { m with vertices := m.vertices ++
      [attrib.vertices (3 * index.vertex_index + 0),
       attrib.vertices (3 * index.vertex_index + 1),
       attrib.vertices (3 * index.vertex_index + 2)] }
  let m := if index.normal_index ≥ 0 then
      { m with normals := m.normals ++
        [attrib.normals (3 * index.normal_index + 0),
         attrib.normals (3 * index.normal_index + 1),
         attrib.normals (3 * index.normal_index + 2)] }
    else m
  if index.texcoord_index ≥ 0 then
      { m with texcoords := m.texcoords ++
        [attrib.texcoords (2 * index.texcoord_index + 0),
         attrib.texcoords (2 * index.texcoord_index + 1)] }
    else m

/-- The double loop `for shape in shapes: for index in shape.mesh.indices`
of `GetModel` (src/main.cpp lines 131-148 / complex1.cpp lines 114-126). -/
def flattenShapes (attrib : Attrib) (shapes : List Shape) (m : Model) : Model :=
  shapes.foldl (fun acc shape => shape.indices.foldl (flattenIndex attrib) acc) m

/-- The `Model` value `GetModel` builds for filename `f` from a successful
load: a fresh model named `f`, filled by the flatten loop, `loaded := true`. -/
def mkModel (f : String) (d : ObjData) : Model :=
  { flattenShapes d.attrib d.shapes
      { name := f, vertices := [], normals := [], texcoords := [], loaded := false }
    with loaded := true }

/-- The global `std::vector<Model*> loadedModels` plus a heap: each entry
pairs a pointer (address) with its pointee; `nextAddr` is the allocator. -/
structure CacheState where
  loadedModels : List (Nat × Model)
  nextAddr : Nat
deriving Repr

def CacheState.empty : CacheState := ⟨[], 0⟩

/-- The linear scan `for (auto* m : loadedModels) if (m->name == filename)
return m;` at the top of `GetModel`; returns the pointer on a hit. -/
def findModel : List (Nat × Model) → String → Option Nat
  | [], _ => none
  | (a, m) :: rest, f => if m.name = f then some a else findModel rest f

/-- Embedding of `GetModel` (src/main.cpp lines 96-154 / complex1.cpp lines 89-132):
scan the cache; on a hit return the stored pointer without touching the
loader; on a miss invoke the loader — on failure return `nullptr` leaving
the cache unchanged (the freshly `new`ed model is `delete`d), on success
allocate the flattened model, register it in `loadedModels`, return it.
The third component records whether the loader was invoked. -/
def getModel (loader : String → Option ObjData) (st : CacheState)
    (filename : String) : Option Nat × CacheState × Bool :=
  match findModel st.loadedModels filename with
  | some a => (some a, st, false)
  | none =>
    match loader filename with
    | none => (none, st, true)
    | some d =>
      (some st.nextAddr,
       ⟨st.loadedModels ++ [(st.nextAddr, mkModel filename d)], st.nextAddr + 1⟩,
       true)

/-! ## Local transforms (C3)

The immediate-mode GL calls `glTranslatef` / `glRotatef` / `glScalef`
each post-multiply the current matrix, so the transform a node's draw
code applies to a local-space vertex is the calls composed with the
first call outermost.  A `glRotatef(θ, axis)` matrix depends on the
angle only through `cos θ` and `sin θ`; the embedding therefore carries
each Euler angle as its exact cosine/sine pair in `ℚ`, which represents
the 0° and 90° angles of the claims exactly. -/

/-- A 3-component vector / point with exact rational components. -/
structure Vec3 where
  x : ℚ
  y : ℚ
  z : ℚ
deriving Repr, DecidableEq

/-- The cosine/sine pair of one `glRotatef` angle. -/
structure RotCS where
  c : ℚ
  s : ℚ
deriving Repr, DecidableEq

/-- The call `glTranslatef(tx, ty, tz)` acting on a point. -/
def translatePt (tx ty tz : ℚ) (v : Vec3) : Vec3 :=
  ⟨v.x + tx, v.y + ty, v.z + tz⟩

/-- The call `glRotatef(θ, 1, 0, 0)` acting on a point, for `r = (cos θ, sin θ)`. -/
def rotateXPt (r : RotCS) (v : Vec3) : Vec3 :=
  ⟨v.x, r.c * v.y - r.s * v.z, r.s * v.y + r.c * v.z⟩

/-- The call `glRotatef(θ, 0, 1, 0)` acting on a point. -/
def rotateYPt (r : RotCS) (v : Vec3) : Vec3 :=
  ⟨r.c * v.x + r.s * v.z, v.y, -(r.s * v.x) + r.c * v.z⟩

/-- The call `glRotatef(θ, 0, 0, 1)` acting on a point. -/
def rotateZPt (r : RotCS) (v : Vec3) : Vec3 :=
  ⟨r.c * v.x - r.s * v.y, r.s * v.x + r.c * v.y, v.z⟩

/-- The call `glScalef(sx, sy, sz)` acting on a point. -/
def scalePt (sx sy sz : ℚ) (v : Vec3) : Vec3 :=
  ⟨sx * v.x, sy * v.y, sz * v.z⟩

/-- The local transform `Node::DrawLegacy` applies (complex1.cpp lines
46-51): `glTranslatef; glRotatef(rz,Z); glRotatef(ry,Y); glRotatef(rx,X);
glScalef` — i.e. `T · Rz · Ry · Rx · S` applied to the local vertex. -/
def drawLegacyTransform (pos : Vec3) (rx ry rz : RotCS) (scl : Vec3)
    (v : Vec3) : Vec3 :=
  translatePt pos.x pos.y pos.z
    (rotateZPt rz (rotateYPt ry (rotateXPt rx (scalePt scl.x scl.y scl.z v))))

/-- The local transform `display` in main.cpp applies per object (lines
244-248): `glTranslatef; glRotatef(rx,X); glRotatef(ry,Y); glRotatef(rz,Z);
glScalef` — i.e. `T · Rx · Ry · Rz · S` applied to the local vertex. -/
def displayMainTransform (pos : Vec3) (rx ry rz : RotCS) (scl : Vec3)
    (v : Vec3) : Vec3 :=
  translatePt pos.x pos.y pos.z
    (rotateXPt rx (rotateYPt ry (rotateZPt rz (scalePt scl.x scl.y scl.z v))))

/-- Modelled from the spec §4.2 words: the fixed composition order
"scale, then rotate-X, then rotate-Y, then rotate-Z, then translate",
i.e. the matrix product `T · Rz · Ry · Rx · S` applied to a local-space
vertex.  Used as the refinement target the drawn transforms are compared
against. -/
def specLocalTransform (pos : Vec3) (rx ry rz : RotCS) (scl : Vec3)
    (v : Vec3) : Vec3 :=
  translatePt pos.x pos.y pos.z
    (rotateZPt rz (rotateYPt ry (rotateXPt rx (scalePt scl.x scl.y scl.z v))))

/-- Exact cosine/sine of 0 degrees. -/
def deg0 : RotCS := ⟨1, 0⟩

/-- Exact cosine/sine of 90 degrees. -/
def deg90 : RotCS := ⟨0, 1⟩

/-! ## Scene parsing (C2, C7)

`parseNode` (complex1.cpp lines 137-162) materializes one json node:
allocates the `Node`, reads the fields with their defaults, resolves the
mesh through `GetModel` when `type == "mesh"`, recurses into `children`,
and only then pushes itself onto the global `flatList`. -/

/-- The json fields `parseNode` reads from one node object; `none` means
the key is absent.  A missing `children` key behaves exactly like an
empty children array, so children are carried as a plain list. -/
structure JFields where
  name : Option String
  type : Option String
  pos : Option (ℚ × ℚ × ℚ)
  rot : Option (ℚ × ℚ × ℚ)
  scale : Option (ℚ × ℚ × ℚ)
  isAnimated : Option Bool
  speed : Option ℚ
  model : Option String

/-- One json scene node: its scalar fields and its `children` array. -/
inductive JNode where
  | mk : JFields → List JNode → JNode

/-- The `class Node` of complex1.cpp (lines 28-70), the data fields.  Field
initialisers match the C++ in-class defaults.  The `children` vector and
pointer identity live in the build tree `SNode` below; `modelData` is a
`Model*` into the cache heap (`none` = `nullptr`). -/
structure Node where
  name : String := ""
  type : String := ""
  x : ℚ := 0
  y : ℚ := 0
  z : ℚ := 0
  rx : ℚ := 0
  ry : ℚ := 0
  rz : ℚ := 0
  sx : ℚ := 1
  sy : ℚ := 1
  sz : ℚ := 1
  modelData : Option Nat := none
  isSelected : Bool := false
  isAnimated : Bool := false
  animSpeed : ℚ := 0
deriving Repr, DecidableEq

/-- A materialized scene node: its heap address (the `Node*`), its data
fields, and its owned children in declaration order. -/
inductive SNode where
  | mk : Nat → Node → List SNode → SNode

/-- Address of a built node (its identity as a `Node*`). -/
def SNode.addr : SNode → Nat
  | .mk a _ _ => a

/-- Data fields of a built node. -/
def SNode.data : SNode → Node
  | .mk _ n _ => n

/-- Children of a built node. -/
def SNode.children : SNode → List SNode
  | .mk _ _ cs => cs

/-- The state threaded through scene construction: the `Node` allocator,
the global `flatList` (as addresses), and the model cache. -/
structure ParseState where
  ctr : Nat
  flatList : List Nat
  cache : CacheState

/-- The pure field-reading part of `parseNode` (complex1.cpp lines
139-147): `value("name","Unnamed")`, `value("type","group")`, the three
optional transform triples, `value("isAnimated",false)`,
`value("speed",1.0f)`. -/
def parseFields (fields : JFields) : Node :=
  let n : Node := { name := fields.name.getD "Unnamed",
                    type := fields.type.getD "group" }
  let n := match fields.pos with
    | some p => { n with x := p.1, y := p.2.1, z := p.2.2 }
    | none => n
  let n := match fields.rot with
    | some r => { n with rx := r.1, ry := r.2.1, rz := r.2.2 }
    | none => n
  let n := match fields.scale with
    | some s => { n with sx := s.1, sy := s.2.1, sz := s.2.2 }
    | none => n
  { n with isAnimated := fields.isAnimated.getD false,
           animSpeed := fields.speed.getD 1 }

/-- The mesh-resolution step of `parseNode` (complex1.cpp lines 149-151):
`if (type == "mesh" && contains("model")) modelData = GetModel(...)`. -/
def resolveMesh (loader : String → Option ObjData) (ty : String)
    (model : Option String) (cache : CacheState) : Option Nat × CacheState :=
  if ty = "mesh" then
    match model with
    | some id =>
      let r := getModel loader cache id
      (r.1, r.2.1)
    | none => (none, cache)
  else (none, cache)

mutual

/-- Embedding of `parseNode` (complex1.cpp lines 137-162): allocate (`new Node()`),
read the fields, resolve the mesh through the cache, build the children,
then `flatList.push_back(n)` — the node registers itself only after all
of its descendants. -/
def parseNode (loader : String → Option ObjData) :
    JNode → ParseState → SNode × ParseState
  | .mk fields jchildren, st =>
    let addr := st.ctr
    let n := parseFields fields
    let rm := resolveMesh loader n.type fields.model st.cache
    let pc := parseChildren loader jchildren ⟨st.ctr + 1, st.flatList, rm.2⟩
    (SNode.mk addr { n with modelData := rm.1 } pc.1,
     ⟨pc.2.ctr, pc.2.flatList ++ [addr], pc.2.cache⟩)

/-- The `for (auto& jChild : jNode["children"])` loop of `parseNode`. -/
def parseChildren (loader : String → Option ObjData) :
    List JNode → ParseState → List SNode × ParseState
  | [], st => ([], st)
  | j :: rest, st =>
    let pc := parseNode loader j st
    let pr := parseChildren loader rest pc.2
    (pc.1 :: pr.1, pr.2)

end

/-- The `for (auto& item : data["root"]) sceneGraph.push_back(parseNode(item))`
loop of `LoadScene` (complex1.cpp lines 169-171). -/
def parseRoots (loader : String → Option ObjData) :
    List JNode → ParseState → List SNode × ParseState
  | [], st => ([], st)
  | j :: rest, st =>
    let pc := parseNode loader j st
    let pr := parseRoots loader rest pc.2
    (pc.1 :: pr.1, pr.2)

/-- Scene construction from the decoded root array, starting from an
empty heap, empty `flatList` and empty cache. -/
def buildScene (loader : String → Option ObjData) (roots : List JNode) :
    List SNode × ParseState :=
  parseRoots loader roots ⟨0, [], CacheState.empty⟩

mutual

/-- Pre-order traversal of a built node: itself, then its descendants. -/
def preorder : SNode → List Nat
  | .mk a _ cs => a :: preorderList cs

/-- Pre-order traversal of a forest, roots in declaration order. -/
def preorderList : List SNode → List Nat
  | [] => []
  | t :: ts => preorder t ++ preorderList ts

end

mutual

/-- Post-order traversal of a built node: its descendants, then itself. -/
def postorder : SNode → List Nat
  | .mk a _ cs => postorderList cs ++ [a]

/-- Post-order traversal of a forest, roots in declaration order. -/
def postorderList : List SNode → List Nat
  | [] => []
  | t :: ts => postorder t ++ postorderList ts

end

/-- Pointer lookup in the cache heap: dereference a `Model*`. -/
def lookupAddr : List (Nat × Model) → Nat → Option Model
  | [], _ => none
  | (a, m) :: rest, b => if a = b then some m else lookupAddr rest b

/-- The vertex stream `Node::DrawLegacy` emits for one node's own mesh
(complex1.cpp lines 53-65): nothing unless `modelData` is non-null and
`loaded` — a node whose mesh failed to load is silently skipped. -/
def drawnVertices (cache : CacheState) (modelData : Option Nat) : List ℚ :=
  match modelData with
  | none => []
  | some p =>
    match lookupAddr cache.loadedModels p with
    | none => []
    | some m => if m.loaded then m.vertices else []

/-! ## Runtime state and event handlers

complex1.cpp's handlers act on the globals `flatList`, `selectedNode`,
`selectionIndex`, `clockRunning`; main.cpp's on `sceneObjects`,
`selectedObject`, `selectionIndex`, `isClockAnimating`, `isRoomSpinning`,
`cameraAngle`.  Every entry of `flatList` / `sceneObjects` is a distinct
heap allocation in the running program, so a `Node*` / `Object*` into the
list is modelled as a position, and the lists carry the nodes by value. -/

/-- Write through a pointer: replace the element at position `i` by
`f` of it.  Out of range (impossible for a genuine pointer) is the
identity. -/
def modifyAt {α : Type} (l : List α) (i : Nat) (f : α → α) : List α :=
  match l.get? i with
  | none => l
  | some a => l.set i (f a)

/-- The complex1.cpp runtime globals touched by `keyboard` and `idle`. -/
structure RTState where
  flatList : List Node
  selectedNode : Option Nat
  selectionIndex : Nat
  clockRunning : Bool
deriving Repr

/-- The selection initialisation closing `LoadScene` (complex1.cpp lines
172-175): when `flatList` is non-empty, point `selectedNode` at
`flatList[0]` and set its flag.  `selectionIndex` starts at 0 and
`clockRunning` at `true` (the globals' initialisers, lines 80-81). -/
def initRT (nodes : List Node) : RTState :=
  if nodes.isEmpty then ⟨nodes, none, 0, true⟩
  else ⟨modifyAt nodes 0 (fun n => { n with isSelected := true }), some 0, 0, true⟩

/-- The TAB branch of complex1.cpp `keyboard` (lines 237-244): clear the
current selection's flag, advance `selectionIndex` with wrap to 0, then
read `flatList[selectionIndex]` — which on an empty `flatList` is an
out-of-bounds `std::vector` access, modelled as `none`. -/
def keyboardTab (st : RTState) : Option RTState :=
  let fl := match st.selectedNode with
    | some i => modifyAt st.flatList i (fun n => { n with isSelected := false })
    | none => st.flatList
  let si := st.selectionIndex + 1
  let si := if si ≥ fl.length then 0 else si
  match fl.get? si with
  | none => none
  | some n =>
    some { flatList := fl.set si { n with isSelected := true },
           selectedNode := some si, selectionIndex := si,
           clockRunning := st.clockRunning }

/-- Pointer write `if (selectedNode) selectedNode->field op= delta` — every transform
edit in complex1.cpp `keyboard` is guarded this way per key. -/
def modifySelected (st : RTState) (f : Node → Node) : RTState :=
  match st.selectedNode with
  | none => st
  | some i => { st with flatList := modifyAt st.flatList i f }

/-- complex1.cpp `keyboard` (lines 229-266): the switch over the core
keys; `speed = 0.1`, `rotSpeed = 2.0`.  ESC (`exit(0)`) is process
control and `glutPostRedisplay` is backend plumbing, neither touches the
modelled state.  Result `none` models the TAB out-of-bounds access. -/
def keyboardC1 (key : Char) (st : RTState) : Option RTState :=
  if key = '\t' then keyboardTab st
  else if key = '/' then some { st with clockRunning := !st.clockRunning }
  else if key = '[' then
    some (modifySelected st fun n => { n with animSpeed := n.animSpeed - 1/10 })
  else if key = ']' then
    some (modifySelected st fun n => { n with animSpeed := n.animSpeed + 1/10 })
  else if key = 'q' then some (modifySelected st fun n => { n with x := n.x + 1/10 })
  else if key = 'a' then some (modifySelected st fun n => { n with x := n.x - 1/10 })
  else if key = 'w' then some (modifySelected st fun n => { n with y := n.y + 1/10 })
  else if key = 's' then some (modifySelected st fun n => { n with y := n.y - 1/10 })
  else if key = 'e' then some (modifySelected st fun n => { n with z := n.z + 1/10 })
  else if key = 'd' then some (modifySelected st fun n => { n with z := n.z - 1/10 })
  else if key = 'r' then some (modifySelected st fun n => { n with rx := n.rx + 2 })
  else if key = 'f' then some (modifySelected st fun n => { n with rx := n.rx - 2 })
  else if key = 't' then some (modifySelected st fun n => { n with ry := n.ry + 2 })
  else if key = 'g' then some (modifySelected st fun n => { n with ry := n.ry - 2 })
  else if key = 'y' then some (modifySelected st fun n => { n with rz := n.rz + 2 })
  else if key = 'h' then some (modifySelected st fun n => { n with rz := n.rz - 2 })
  else some st

/-- The per-node body of complex1.cpp `idle`:
`if (n->isAnimated) n->rz += n->animSpeed`. -/
def animStepC1 (n : Node) : Node :=
  if n.isAnimated then { n with rz := n.rz + n.animSpeed } else n

/-- complex1.cpp `idle` (lines 281-288): while `clockRunning`, every
animated node gains `animSpeed` on its `rz` field. -/
def idleC1 (st : RTState) : RTState :=
  if st.clockRunning then
    { st with flatList := st.flatList.map animStepC1 }
  else st

/-- The selection-consistency invariant of the complex1.cpp runtime
state, for a non-empty scene: the cursor is in range, `selectedNode`
points at the cursor's node, and a node's `isSelected` flag holds
exactly at the cursor position. -/
def SelInv (st : RTState) : Prop :=
  st.selectionIndex < st.flatList.length ∧
  st.selectedNode = some st.selectionIndex ∧
  ∀ j n, st.flatList.get? j = some n →
    (n.isSelected = true ↔ j = st.selectionIndex)

/-- Run `n` TAB presses, stopping at undefined behaviour. -/
def tabN : Nat → RTState → Option RTState
  | 0, st => some st
  | k + 1, st =>
    match keyboardTab st with
    | none => none
    | some st' => tabN k st'

/-- The `struct Object` of main.cpp (lines 30-42) with its in-class defaults;
`model` is a `Model*` into the cache heap. -/
structure Object where
  name : String := ""
  x : ℚ := 0
  y : ℚ := 0
  z : ℚ := 0
  rx : ℚ := 0
  ry : ℚ := 0
  rz : ℚ := 0
  sx : ℚ := 1
  sy : ℚ := 1
  sz : ℚ := 1
  spinAnimation : Bool := false
  spinSpeed : ℚ := 0
  model : Option Nat := none
deriving Repr, DecidableEq

/-- The main.cpp runtime globals touched by `keyboard` and `idle`
(lines 47-59). -/
structure MainState where
  sceneObjects : List Object
  selectedObject : Option Nat
  selectionIndex : Nat
  isClockAnimating : Bool
  isRoomSpinning : Bool
  cameraAngle : ℚ
deriving Repr

/-- Pointer write on the selected object of main.cpp. -/
def modifySelectedMain (st : MainState) (f : Object → Object) : MainState :=
  match st.selectedObject with
  | none => st
  | some i => { st with sceneObjects := modifyAt st.sceneObjects i f }

/-- main.cpp `keyboard` (lines 282-324): the whole handler early-returns
when `selectedObject` is null (line 283), so with no selection every key
is a no-op on the modelled state.  `speed = 0.2`, `rSpeed = 5.0`; the
scale keys adjust all three components by 0.05.  The TAB branch indexes
`sceneObjects[(selectionIndex+1) % size]`; `none` models the undefined
`% 0` / out-of-bounds path (unreachable while a selection exists). -/
def keyboardMain (key : Char) (st : MainState) : Option MainState :=
  match st.selectedObject with
  | none => some st
  | some _ =>
    if key = '\t' then
      let si := (st.selectionIndex + 1) % st.sceneObjects.length
      match st.sceneObjects.get? si with
      | none => none
      | some _ => some { st with selectionIndex := si, selectedObject := some si }
    else if key = ' ' then some { st with isClockAnimating := !st.isClockAnimating }
    else if key = '\r' then some { st with isRoomSpinning := !st.isRoomSpinning }
    else if key = 'w' then some (modifySelectedMain st fun o => { o with y := o.y + 1/5 })
    else if key = 's' then some (modifySelectedMain st fun o => { o with y := o.y - 1/5 })
    else if key = 'a' then some (modifySelectedMain st fun o => { o with x := o.x - 1/5 })
    else if key = 'd' then some (modifySelectedMain st fun o => { o with x := o.x + 1/5 })
    else if key = 'q' then some (modifySelectedMain st fun o => { o with z := o.z + 1/5 })
    else if key = 'e' then some (modifySelectedMain st fun o => { o with z := o.z - 1/5 })
    else if key = 'r' then some (modifySelectedMain st fun o => { o with rx := o.rx + 5 })
    else if key = 'f' then some (modifySelectedMain st fun o => { o with rx := o.rx - 5 })
    else if key = 't' then some (modifySelectedMain st fun o => { o with ry := o.ry + 5 })
    else if key = 'g' then some (modifySelectedMain st fun o => { o with ry := o.ry - 5 })
    else if key = 'y' then some (modifySelectedMain st fun o => { o with rz := o.rz + 5 })
    else if key = 'h' then some (modifySelectedMain st fun o => { o with rz := o.rz - 5 })
    else if key = 'u' then some (modifySelectedMain st fun o =>
      { o with sx := o.sx + 1/20, sy := o.sy + 1/20, sz := o.sz + 1/20 })
    else if key = 'j' then some (modifySelectedMain st fun o =>
      { o with sx := o.sx - 1/20, sy := o.sy - 1/20, sz := o.sz - 1/20 })
    else some st

/-- The per-object body of main.cpp `idle`:
`if (obj->spinAnimation) obj->rx -= obj->spinSpeed` (note the minus —
the code's comment reads "Clock Animation (Updated: Rotate -X)"). -/
def animStepMain (o : Object) : Object :=
  if o.spinAnimation then { o with rx := o.rx - o.spinSpeed } else o

/-- main.cpp `idle` (lines 336-352): while `isClockAnimating`, every
spin-animated object loses `spinSpeed` on its `rx` field; while
`isRoomSpinning` the camera angle advances by 0.005 — a camera variable,
not a node field. -/
def idleMain (st : MainState) : MainState :=
  let st1 := if st.isClockAnimating then
      { st with sceneObjects := st.sceneObjects.map animStepMain }
    else st
  if st1.isRoomSpinning then { st1 with cameraAngle := st1.cameraAngle + 1/200 }
  else st1

/-! ## Request traces through the cache (for the dedup property)

A session is a list of `GetModel` calls in program order; the trace
records, per call, the returned `Model*` and whether the loader ran. -/

/-- Process a request list through the cache, recording each request's
(returned pointer, loader-invoked) pair in order. -/
def runRequests (loader : String → Option ObjData) :
    List String → CacheState → CacheState × List (Option Nat × Bool)
  | [], st => (st, [])
  | f :: rest, st =>
    let r := getModel loader st f
    let rr := runRequests loader rest r.2.1
    (rr.1, (r.1, r.2.2) :: rr.2)

/-- How many of the requests are for identifier `f`. -/
def countReq (f : String) : List String → Nat
  | [] => 0
  | g :: reqs => countReq f reqs + (if g = f then 1 else 0)

/-- The returned pointers of the requests for `f`, in request order. -/
def resultsFor (f : String) : List String → List (Option Nat × Bool) → List (Option Nat)
  | g :: reqs, r :: rs =>
    if g = f then r.1 :: resultsFor f reqs rs else resultsFor f reqs rs
  | _, _ => []

/-- The loader-invocation flags of the requests for `f`, in request order. -/
def invokedFor (f : String) : List String → List (Option Nat × Bool) → List Bool
  | g :: reqs, r :: rs =>
    if g = f then r.2 :: invokedFor f reqs rs else invokedFor f reqs rs
  | _, _ => []

/-- Total number of face-vertex indices in a loader output (one flat
vertex is emitted per index). -/
def totalIndices (shapes : List Shape) : Nat :=
  (shapes.map (fun s => s.indices.length)).sum

/-- Number of face-vertex indices carrying a normal index. -/
def countNormal (shapes : List Shape) : Nat :=
  (shapes.map (fun s => (s.indices.filter (fun i => i.normal_index ≥ 0)).length)).sum

/-- Number of face-vertex indices carrying a texcoord index. -/
def countTex (shapes : List Shape) : Nat :=
  (shapes.map (fun s => (s.indices.filter (fun i => i.texcoord_index ≥ 0)).length)).sum

/-- A loader output in which one face index carries a normal index and
the other does not (legal `tinyobj` output: OBJ faces may mix `v//vn`
and plain `v` references); used to refute the per-vertex length
invariant. -/
def mixedObjData : ObjData :=
  ⟨⟨fun _ => 0, fun _ => 0, fun _ => 0⟩, [⟨[⟨0, 0, -1⟩, ⟨0, -1, -1⟩]⟩]⟩

/-! ## Basic cache lemmas -/

theorem findModel_append (l l' : List (Nat × Model)) (f : String) :
    findModel (l ++ l') f =
      match findModel l f with
      | some a => some a
      | none => findModel l' f := by
  induction l with
  | nil => rfl
  | cons p rest ih =>
    obtain ⟨a, m⟩ := p
    by_cases h : m.name = f <;> simp [findModel, h, ih]

theorem flattenIndex_name (attrib : Attrib) (m : Model) (i : ObjIndex) :
    (flattenIndex attrib m i).name = m.name := by
  simp only [flattenIndex]
  split <;> split <;> rfl

theorem foldl_flattenIndex_name (attrib : Attrib) :
    ∀ (is : List ObjIndex) (m : Model),
      (is.foldl (flattenIndex attrib) m).name = m.name
  | [], _ => rfl
  | i :: rest, m => by
    rw [List.foldl_cons, foldl_flattenIndex_name attrib rest, flattenIndex_name]

theorem flattenShapes_name (attrib : Attrib) :
    ∀ (shapes : List Shape) (m : Model),
      (flattenShapes attrib shapes m).name = m.name
  | [], _ => rfl
  | s :: rest, m => by
    have h := flattenShapes_name attrib rest (s.indices.foldl (flattenIndex attrib) m)
    simp only [flattenShapes, List.foldl_cons] at h ⊢
    rw [h, foldl_flattenIndex_name]

theorem mkModel_name (f : String) (d : ObjData) : (mkModel f d).name = f := by
  simp [mkModel, flattenShapes_name]

theorem getModel_hit (loader : String → Option ObjData) (st : CacheState)
    {f : String} {a : Nat} (h : findModel st.loadedModels f = some a) :
    getModel loader st f = (some a, st, false) := by
  simp [getModel, h]

theorem getModel_miss_success (loader : String → Option ObjData)
    (st : CacheState) {f : String} {d : ObjData}
    (hmiss : findModel st.loadedModels f = none) (hload : loader f = some d) :
    getModel loader st f =
      (some st.nextAddr,
       ⟨st.loadedModels ++ [(st.nextAddr, mkModel f d)], st.nextAddr + 1⟩,
       true) := by
  simp [getModel, hmiss, hload]

/-- After a miss-and-load for `f`, the scan finds `f` at the new address. -/
theorem findModel_after_insert (st : CacheState) {f : String} (d : ObjData)
    (hmiss : findModel st.loadedModels f = none) :
    findModel (st.loadedModels ++ [(st.nextAddr, mkModel f d)]) f =
      some st.nextAddr := by
  rw [findModel_append, hmiss]
  simp [findModel, mkModel_name]

/-- A cache hit for `f` survives any `getModel` call (the cache only ever
appends). -/
theorem findModel_stable (loader : String → Option ObjData) (st : CacheState)
    (g : String) {f : String} {a : Nat}
    (h : findModel st.loadedModels f = some a) :
    findModel (getModel loader st g).2.1.loadedModels f = some a := by
  unfold getModel
  cases hg : findModel st.loadedModels g with
  | some b => simpa using h
  | none =>
    cases hl : loader g with
    | none => simpa using h
    | some d => simp [findModel_append, h]

/-- A cache miss for `f` survives a `getModel` call for a different
identifier: the only entry possibly appended is named `g ≠ f`. -/
theorem findModel_none_stable (loader : String → Option ObjData)
    (st : CacheState) {g f : String} (hne : g ≠ f)
    (h : findModel st.loadedModels f = none) :
    findModel (getModel loader st g).2.1.loadedModels f = none := by
  unfold getModel
  cases hg : findModel st.loadedModels g with
  | some b => simpa using h
  | none =>
    cases hl : loader g with
    | none => simpa using h
    | some d => simp [findModel_append, h, findModel, mkModel_name, hne]

/-- C7: when the loader fails for an uncached identifier, `GetModel`
returns `nullptr`, the cache gains no entry, a repeat request re-invokes
the loader (the state being unchanged, the second call is the same call),
the mesh-resolution step of `parseNode` registers no mesh reference for
the requesting node, and a node with a null `modelData` emits no
geometry in `DrawLegacy`. -/
theorem getModel_failure_no_negative_caching
    (loader : String → Option ObjData) (st : CacheState) (f : String)
    (hmiss : findModel st.loadedModels f = none) (hfail : loader f = none) :
    getModel loader st f = (none, st, true) ∧
    getModel loader (getModel loader st f).2.1 f = (none, st, true) ∧
    resolveMesh loader "mesh" (some f) st = (none, st) ∧
    drawnVertices st none = [] := by
  have h1 : getModel loader st f = (none, st, true) := by
    simp [getModel, hmiss, hfail]
  refine ⟨h1, by rw [h1]; exact h1, ?_, rfl⟩
  simp [resolveMesh, h1]

/-- Witness for C7 at a concrete input: the always-failing loader on the
empty cache and identifier "bad.obj". -/
theorem getModel_failure_no_negative_caching_witness :
    findModel CacheState.empty.loadedModels "bad.obj" = none ∧
    (fun _ : String => (none : Option ObjData)) "bad.obj" = none ∧
    (getModel (fun _ => none) CacheState.empty "bad.obj" =
        (none, CacheState.empty, true) ∧
      getModel (fun _ => none)
          (getModel (fun _ => none) CacheState.empty "bad.obj").2.1 "bad.obj" =
        (none, CacheState.empty, true) ∧
      resolveMesh (fun _ => none) "mesh" (some "bad.obj") CacheState.empty =
        (none, CacheState.empty) ∧
      drawnVertices CacheState.empty none = []) :=
  ⟨rfl, rfl,
    getModel_failure_no_negative_caching (fun _ => none) CacheState.empty
      "bad.obj" rfl rfl⟩

/-! ## Cache dedup (C1) -/

/-- Once `f` is cached at pointer `a`, every later request for `f` in the
session returns exactly `a` and never re-invokes the loader. -/
theorem runRequests_cached (loader : String → Option ObjData) (f : String)
    {a : Nat} :
    ∀ (reqs : List String) (st : CacheState),
      findModel st.loadedModels f = some a →
      resultsFor f reqs (runRequests loader reqs st).2 =
        List.replicate (countReq f reqs) (some a) ∧
      invokedFor f reqs (runRequests loader reqs st).2 =
        List.replicate (countReq f reqs) false
  | [], st, _ => ⟨rfl, rfl⟩
  | g :: rest, st, h => by
    have hst' := findModel_stable loader st g h
    have ih := runRequests_cached loader f rest (getModel loader st g).2.1 hst'
    by_cases hg : g = f
    · subst hg
      have hr : getModel loader st g = (some a, st, false) := getModel_hit loader st h
      simp [runRequests, resultsFor, invokedFor, countReq, hr,
        List.replicate_succ] at ih ⊢
      exact ⟨ih.1, ih.2⟩
    · simp [runRequests, resultsFor, invokedFor, countReq, hg, ih.1, ih.2]

/-- From a state where `f` is not yet cached and `f` is loadable: the
first request for `f` in the session invokes the loader, every later
request for `f` does not, and all requests for `f` return the same
pointer. -/
theorem runRequests_fresh (loader : String → Option ObjData) (f : String)
    (d : ObjData) (hload : loader f = some d) :
    ∀ (reqs : List String) (st : CacheState),
      findModel st.loadedModels f = none →
      ∃ a, resultsFor f reqs (runRequests loader reqs st).2 =
             List.replicate (countReq f reqs) (some a) ∧
           invokedFor f reqs (runRequests loader reqs st).2 =
             (if countReq f reqs = 0 then []
              else true :: List.replicate (countReq f reqs - 1) false)
  | [], st, _ => ⟨0, rfl, rfl⟩
  | g :: rest, st, h => by
    by_cases hg : g = f
    · subst hg
      have hr := getModel_miss_success loader st h hload
      have hins : findModel (getModel loader st g).2.1.loadedModels g =
          some st.nextAddr := by
        rw [hr]; exact findModel_after_insert st d h
      have ih := runRequests_cached loader g rest (getModel loader st g).2.1 hins
      refine ⟨st.nextAddr, ?_, ?_⟩
      · simp [runRequests, resultsFor, countReq, hr, List.replicate_succ] at ih ⊢
        exact ih.1
      · simp [runRequests, invokedFor, countReq, hr, List.replicate_succ] at ih ⊢
        exact ih.2
    · have hst' := findModel_none_stable loader st hg h
      obtain ⟨a, ih1, ih2⟩ :=
        runRequests_fresh loader f d hload rest (getModel loader st g).2.1 hst'
      exact ⟨a, by simp [runRequests, resultsFor, countReq, hg, ih1],
                by simp [runRequests, invokedFor, countReq, hg, ih2]⟩

/-- C1: in any session of `GetModel` requests from process start (empty
cache), for an identifier `f` the loader can load, the loader runs
exactly once — on the first request for `f` — and every request for `f`
returns the identical pointer. -/
theorem getModel_dedup (loader : String → Option ObjData) (f : String)
    (d : ObjData) (reqs : List String) (hload : loader f = some d)
    (hreq : 1 ≤ countReq f reqs) :
    ∃ a, resultsFor f reqs (runRequests loader reqs CacheState.empty).2 =
           List.replicate (countReq f reqs) (some a) ∧
         invokedFor f reqs (runRequests loader reqs CacheState.empty).2 =
           true :: List.replicate (countReq f reqs - 1) false := by
  obtain ⟨a, h1, h2⟩ :=
    runRequests_fresh loader f d hload reqs CacheState.empty rfl
  refine ⟨a, h1, ?_⟩
  rw [h2, if_neg (by omega)]

/-- Witness for C1: identifier "a.obj" requested twice with an unrelated
request in between, under a loader that succeeds on everything. -/
theorem getModel_dedup_witness :
    (fun _ : String => some (⟨⟨fun _ => 0, fun _ => 0, fun _ => 0⟩, []⟩ : ObjData))
        "a.obj" = some ⟨⟨fun _ => 0, fun _ => 0, fun _ => 0⟩, []⟩ ∧
    1 ≤ countReq "a.obj" ["a.obj", "b.obj", "a.obj"] ∧
    ∃ a, resultsFor "a.obj" ["a.obj", "b.obj", "a.obj"]
           (runRequests (fun _ => some ⟨⟨fun _ => 0, fun _ => 0, fun _ => 0⟩, []⟩)
             ["a.obj", "b.obj", "a.obj"] CacheState.empty).2 =
           List.replicate (countReq "a.obj" ["a.obj", "b.obj", "a.obj"]) (some a) ∧
         invokedFor "a.obj" ["a.obj", "b.obj", "a.obj"]
           (runRequests (fun _ => some ⟨⟨fun _ => 0, fun _ => 0, fun _ => 0⟩, []⟩)
             ["a.obj", "b.obj", "a.obj"] CacheState.empty).2 =
           true :: List.replicate
             (countReq "a.obj" ["a.obj", "b.obj", "a.obj"] - 1) false :=
  ⟨rfl, by decide,
    getModel_dedup (fun _ => some ⟨⟨fun _ => 0, fun _ => 0, fun _ => 0⟩, []⟩)
      "a.obj" ⟨⟨fun _ => 0, fun _ => 0, fun _ => 0⟩, []⟩
      ["a.obj", "b.obj", "a.obj"] rfl (by decide)⟩

/-! ## Mesh payload shape (C8) -/

theorem flattenIndex_vertices_length (attrib : Attrib) (m : Model)
    (i : ObjIndex) :
    (flattenIndex attrib m i).vertices.length = m.vertices.length + 3 := by
  simp only [flattenIndex]
  split <;> split <;> simp

theorem flattenIndex_normals_length (attrib : Attrib) (m : Model)
    (i : ObjIndex) :
    (flattenIndex attrib m i).normals.length =
      m.normals.length + (if i.normal_index ≥ 0 then 3 else 0) := by
  simp only [flattenIndex]
  split <;> split <;> simp_all

theorem flattenIndex_texcoords_length (attrib : Attrib) (m : Model)
    (i : ObjIndex) :
    (flattenIndex attrib m i).texcoords.length =
      m.texcoords.length + (if i.texcoord_index ≥ 0 then 2 else 0) := by
  simp only [flattenIndex]
  split <;> split <;> simp_all

theorem foldl_flattenIndex_vertices_length (attrib : Attrib) :
    ∀ (is : List ObjIndex) (m : Model),
      (is.foldl (flattenIndex attrib) m).vertices.length =
        m.vertices.length + 3 * is.length
  | [], _ => by simp
  | i :: rest, m => by
    rw [List.foldl_cons, foldl_flattenIndex_vertices_length attrib rest,
      flattenIndex_vertices_length]
    simp [Nat.mul_succ]
    omega

theorem foldl_flattenIndex_normals_length (attrib : Attrib) :
    ∀ (is : List ObjIndex) (m : Model),
      (is.foldl (flattenIndex attrib) m).normals.length =
        m.normals.length + 3 * (is.filter (fun i => i.normal_index ≥ 0)).length
  | [], _ => by simp
  | i :: rest, m => by
    rw [List.foldl_cons, foldl_flattenIndex_normals_length attrib rest,
      flattenIndex_normals_length]
    by_cases h : i.normal_index ≥ 0 <;> (simp [h, Nat.mul_succ]; try omega)

theorem foldl_flattenIndex_texcoords_length (attrib : Attrib) :
    ∀ (is : List ObjIndex) (m : Model),
      (is.foldl (flattenIndex attrib) m).texcoords.length =
        m.texcoords.length + 2 * (is.filter (fun i => i.texcoord_index ≥ 0)).length
  | [], _ => by simp
  | i :: rest, m => by
    rw [List.foldl_cons, foldl_flattenIndex_texcoords_length attrib rest,
      flattenIndex_texcoords_length]
    by_cases h : i.texcoord_index ≥ 0 <;> (simp [h, Nat.mul_succ]; try omega)

theorem flattenShapes_vertices_length (attrib : Attrib) :
    ∀ (shapes : List Shape) (m : Model),
      (flattenShapes attrib shapes m).vertices.length =
        m.vertices.length + 3 * totalIndices shapes
  | [], _ => by simp [flattenShapes, totalIndices]
  | s :: rest, m => by
    have h := flattenShapes_vertices_length attrib rest
      (s.indices.foldl (flattenIndex attrib) m)
    simp only [flattenShapes, List.foldl_cons] at h ⊢
    rw [h, foldl_flattenIndex_vertices_length]
    simp [totalIndices, Nat.mul_add]
    omega

theorem flattenShapes_normals_length (attrib : Attrib) :
    ∀ (shapes : List Shape) (m : Model),
      (flattenShapes attrib shapes m).normals.length =
        m.normals.length + 3 * countNormal shapes
  | [], _ => by simp [flattenShapes, countNormal]
  | s :: rest, m => by
    have h := flattenShapes_normals_length attrib rest
      (s.indices.foldl (flattenIndex attrib) m)
    simp only [flattenShapes, List.foldl_cons] at h ⊢
    rw [h, foldl_flattenIndex_normals_length]
    simp [countNormal, Nat.mul_add]
    omega

theorem flattenShapes_texcoords_length (attrib : Attrib) :
    ∀ (shapes : List Shape) (m : Model),
      (flattenShapes attrib shapes m).texcoords.length =
        m.texcoords.length + 2 * countTex shapes
  | [], _ => by simp [flattenShapes, countTex]
  | s :: rest, m => by
    have h := flattenShapes_texcoords_length attrib rest
      (s.indices.foldl (flattenIndex attrib) m)
    simp only [flattenShapes, List.foldl_cons] at h ⊢
    rw [h, foldl_flattenIndex_texcoords_length]
    simp [countTex, Nat.mul_add]
    omega

/-- C8 counterexample: on the loader output `mixedObjData` — one face
index with a normal index, one without — the payload `GetModel` builds
has a non-empty normals array strictly shorter than the positions array,
and its vertex count (2) is not a multiple of 3. -/
theorem mkModel_invariant_counterexample :
    (mkModel "m.obj" mixedObjData).normals ≠ [] ∧
    (mkModel "m.obj" mixedObjData).normals.length ≠
      (mkModel "m.obj" mixedObjData).vertices.length ∧
    ((mkModel "m.obj" mixedObjData).vertices.length / 3) % 3 ≠ 0 := by
  refine ⟨?_, by decide, by decide⟩
  intro h
  have := congrArg List.length h
  simp [mkModel, mixedObjData, flattenShapes, flattenIndex] at this

/-- C8 amended: the exact shape of every payload a successful load
produces — one 3-component position per face index, one 3-component
normal per face index that carries a normal index, one 2-component
texcoord per face index that carries a texcoord index; consequently the
normals (texcoords) match the positions per-vertex iff every index
carries them, and the vertex count is a multiple of 3 whenever the
loader output's total index count is (pre-triangulated input). -/
theorem mkModel_invariants (f : String) (d : ObjData) :
    (mkModel f d).vertices.length = 3 * totalIndices d.shapes ∧
    (mkModel f d).normals.length = 3 * countNormal d.shapes ∧
    (mkModel f d).texcoords.length = 2 * countTex d.shapes ∧
    (totalIndices d.shapes % 3 = 0 →
      ((mkModel f d).vertices.length / 3) % 3 = 0) := by
  have hv : (mkModel f d).vertices.length = 3 * totalIndices d.shapes := by
    simp [mkModel, flattenShapes_vertices_length]
  refine ⟨hv, ?_, ?_, ?_⟩
  · simp [mkModel, flattenShapes_normals_length]
  · simp [mkModel, flattenShapes_texcoords_length]
  · intro h3
    rw [hv, Nat.mul_div_cancel_left _ (by norm_num)]
    exact h3

/-- Witness for C8's conditional part: a fully-triangulated output with
3 indices, all carrying normal and texcoord indices. -/
theorem mkModel_invariants_witness :
    totalIndices ([⟨[⟨0, 0, 0⟩, ⟨1, 1, 1⟩, ⟨2, 2, 2⟩]⟩] : List Shape) % 3 = 0 ∧
    ((mkModel "tri.obj"
        ⟨⟨fun _ => 0, fun _ => 0, fun _ => 0⟩,
         [⟨[⟨0, 0, 0⟩, ⟨1, 1, 1⟩, ⟨2, 2, 2⟩]⟩]⟩).vertices.length =
        3 * totalIndices [⟨[⟨0, 0, 0⟩, ⟨1, 1, 1⟩, ⟨2, 2, 2⟩]⟩] ∧
      (mkModel "tri.obj"
        ⟨⟨fun _ => 0, fun _ => 0, fun _ => 0⟩,
         [⟨[⟨0, 0, 0⟩, ⟨1, 1, 1⟩, ⟨2, 2, 2⟩]⟩]⟩).normals.length =
        3 * countNormal [⟨[⟨0, 0, 0⟩, ⟨1, 1, 1⟩, ⟨2, 2, 2⟩]⟩] ∧
      (mkModel "tri.obj"
        ⟨⟨fun _ => 0, fun _ => 0, fun _ => 0⟩,
         [⟨[⟨0, 0, 0⟩, ⟨1, 1, 1⟩, ⟨2, 2, 2⟩]⟩]⟩).texcoords.length =
        2 * countTex [⟨[⟨0, 0, 0⟩, ⟨1, 1, 1⟩, ⟨2, 2, 2⟩]⟩] ∧
      (totalIndices ([⟨[⟨0, 0, 0⟩, ⟨1, 1, 1⟩, ⟨2, 2, 2⟩]⟩] : List Shape) % 3 = 0 →
        ((mkModel "tri.obj"
          ⟨⟨fun _ => 0, fun _ => 0, fun _ => 0⟩,
           [⟨[⟨0, 0, 0⟩, ⟨1, 1, 1⟩, ⟨2, 2, 2⟩]⟩]⟩).vertices.length / 3) % 3 = 0)) :=
  ⟨by decide,
    mkModel_invariants "tri.obj"
      ⟨⟨fun _ => 0, fun _ => 0, fun _ => 0⟩,
       [⟨[⟨0, 0, 0⟩, ⟨1, 1, 1⟩, ⟨2, 2, 2⟩]⟩]⟩⟩

/-! ## Transform composition order (C3) -/

/-- C3 counterexample: main.cpp's `display` (cited by the claim alongside
`DrawLegacy`) draws with rotations applied X-then-Y-then-Z, which differs
from the claimed `T · Rz · Ry · Rx · S` already at rot = (90°, 0, 90°),
unit scale, zero translation, on local point (0,1,0): the drawn transform
yields (-1, 0, 0) while the claimed composition yields (0, 0, 1). -/
theorem displayMain_order_counterexample :
    displayMainTransform ⟨0, 0, 0⟩ deg90 deg0 deg90 ⟨1, 1, 1⟩ ⟨0, 1, 0⟩ =
        ⟨-1, 0, 0⟩ ∧
    specLocalTransform ⟨0, 0, 0⟩ deg90 deg0 deg90 ⟨1, 1, 1⟩ ⟨0, 1, 0⟩ =
        ⟨0, 0, 1⟩ ∧
    displayMainTransform ⟨0, 0, 0⟩ deg90 deg0 deg90 ⟨1, 1, 1⟩ ⟨0, 1, 0⟩ ≠
      specLocalTransform ⟨0, 0, 0⟩ deg90 deg0 deg90 ⟨1, 1, 1⟩ ⟨0, 1, 0⟩ := by
  refine ⟨?_, ?_, ?_⟩ <;>
    norm_num [displayMainTransform, specLocalTransform, translatePt,
      rotateXPt, rotateYPt, rotateZPt, scalePt, deg0, deg90, Vec3.mk.injEq]

/-- C3 amended: `Node::DrawLegacy` (complex1.cpp) applies exactly the
composition `T · Rz · Ry · Rx · S` of the spec, for every node transform
and every local vertex; main.cpp's `display` instead applies
`T · Rx · Ry · Rz · S`, but on the claim's discriminating input —
rot = (90,0,0), scale = (2,1,1), pos = (1,0,0), local point (0,1,0) —
the two orders coincide and both produce (1, 0, 1), the value the fixed
composition order prescribes. -/
theorem drawLegacy_composition_order :
    (∀ (pos : Vec3) (rx ry rz : RotCS) (scl v : Vec3),
      drawLegacyTransform pos rx ry rz scl v =
        specLocalTransform pos rx ry rz scl v) ∧
    drawLegacyTransform ⟨1, 0, 0⟩ deg90 deg0 deg0 ⟨2, 1, 1⟩ ⟨0, 1, 0⟩ =
      ⟨1, 0, 1⟩ ∧
    displayMainTransform ⟨1, 0, 0⟩ deg90 deg0 deg0 ⟨2, 1, 1⟩ ⟨0, 1, 0⟩ =
      ⟨1, 0, 1⟩ ∧
    specLocalTransform ⟨1, 0, 0⟩ deg90 deg0 deg0 ⟨2, 1, 1⟩ ⟨0, 1, 0⟩ =
      ⟨1, 0, 1⟩ := by
  refine ⟨fun _ _ _ _ _ _ => rfl, ?_, ?_, ?_⟩ <;>
    norm_num [drawLegacyTransform, displayMainTransform, specLocalTransform,
      translatePt, rotateXPt, rotateYPt, rotateZPt, scalePt, deg0, deg90,
      Vec3.mk.injEq]

/-! ## Flatten order (C2)

`parseNode` pushes a node onto `flatList` only *after* the recursive
calls on its children have pushed theirs, so the flatten order is a
post-order traversal, not the claimed pre-order. -/

mutual

theorem parseNode_flatList (loader : String → Option ObjData) :
    ∀ (j : JNode) (st : ParseState),
      (parseNode loader j st).2.flatList =
        st.flatList ++ postorder (parseNode loader j st).1
  | .mk fields jchildren, st => by
    have h := parseChildren_flatList loader jchildren
      ⟨st.ctr + 1, st.flatList,
       (resolveMesh loader (parseFields fields).type fields.model st.cache).2⟩
    simp only [parseNode, postorder]
    rw [h]
    simp

theorem parseChildren_flatList (loader : String → Option ObjData) :
    ∀ (js : List JNode) (st : ParseState),
      (parseChildren loader js st).2.flatList =
        st.flatList ++ postorderList (parseChildren loader js st).1
  | [], st => by simp [parseChildren, postorderList]
  | j :: rest, st => by
    have h1 := parseNode_flatList loader j st
    have h2 := parseChildren_flatList loader rest (parseNode loader j st).2
    simp only [parseChildren, postorderList]
    rw [h2, h1]
    simp

end

theorem parseRoots_flatList (loader : String → Option ObjData) :
    ∀ (js : List JNode) (st : ParseState),
      (parseRoots loader js st).2.flatList =
        st.flatList ++ postorderList (parseRoots loader js st).1
  | [], st => by simp [parseRoots, postorderList]
  | j :: rest, st => by
    have h1 := parseNode_flatList loader j st
    have h2 := parseRoots_flatList loader rest (parseNode loader j st).2
    simp only [parseRoots, postorderList]
    rw [h2, h1]
    simp

mutual

theorem parseNode_meta (loader : String → Option ObjData) :
    ∀ (j : JNode) (st : ParseState),
      st.ctr < (parseNode loader j st).2.ctr ∧
      (∀ a ∈ postorder (parseNode loader j st).1,
        st.ctr ≤ a ∧ a < (parseNode loader j st).2.ctr) ∧
      (postorder (parseNode loader j st).1).Nodup
  | .mk fields jchildren, st => by
    have h := parseChildren_meta loader jchildren
      ⟨st.ctr + 1, st.flatList,
       (resolveMesh loader (parseFields fields).type fields.model st.cache).2⟩
    simp only [parseNode, postorder] at h ⊢
    obtain ⟨hctr, hrange, hnodup⟩ := h
    refine ⟨by omega, ?_, ?_⟩
    · intro a ha
      rcases List.mem_append.1 ha with ha | ha
      · have := hrange a ha
        omega
      · simp at ha
        omega
    · rw [List.nodup_append]
      refine ⟨hnodup, List.nodup_singleton _, ?_⟩
      intro a ha hb
      have := hrange a ha
      simp at hb
      omega

theorem parseChildren_meta (loader : String → Option ObjData) :
    ∀ (js : List JNode) (st : ParseState),
      st.ctr ≤ (parseChildren loader js st).2.ctr ∧
      (∀ a ∈ postorderList (parseChildren loader js st).1,
        st.ctr ≤ a ∧ a < (parseChildren loader js st).2.ctr) ∧
      (postorderList (parseChildren loader js st).1).Nodup
  | [], st => by simp [parseChildren, postorderList]
  | j :: rest, st => by
    have h1 := parseNode_meta loader j st
    have h2 := parseChildren_meta loader rest (parseNode loader j st).2
    simp only [parseChildren, postorderList] at h1 h2 ⊢
    obtain ⟨h1c, h1r, h1n⟩ := h1
    obtain ⟨h2c, h2r, h2n⟩ := h2
    refine ⟨by omega, ?_, ?_⟩
    · intro a ha
      rcases List.mem_append.1 ha with ha | ha
      · have := h1r a ha
        omega
      · have := h2r a ha
        omega
    · rw [List.nodup_append]
      refine ⟨h1n, h2n, ?_⟩
      intro a ha hb
      have ha' := h1r a ha
      have hb' := h2r a hb
      omega

end

theorem parseRoots_meta (loader : String → Option ObjData) :
    ∀ (js : List JNode) (st : ParseState),
      st.ctr ≤ (parseRoots loader js st).2.ctr ∧
      (∀ a ∈ postorderList (parseRoots loader js st).1,
        st.ctr ≤ a ∧ a < (parseRoots loader js st).2.ctr) ∧
      (postorderList (parseRoots loader js st).1).Nodup
  | [], st => by simp [parseRoots, postorderList]
  | j :: rest, st => by
    have h1 := parseNode_meta loader j st
    have h2 := parseRoots_meta loader rest (parseNode loader j st).2
    simp only [parseRoots, postorderList] at h1 h2 ⊢
    obtain ⟨h1c, h1r, h1n⟩ := h1
    obtain ⟨h2c, h2r, h2n⟩ := h2
    refine ⟨by omega, ?_, ?_⟩
    · intro a ha
      rcases List.mem_append.1 ha with ha | ha
      · have := h1r a ha
        omega
      · have := h2r a ha
        omega
    · rw [List.nodup_append]
      refine ⟨h1n, h2n, ?_⟩
      intro a ha hb
      have ha' := h1r a ha
      have hb' := h2r a hb
      omega

/-- C2 counterexample: for a scene of one root with one child, the
`flatList` built during construction is `[child, root]` (addresses
`[1, 0]`; the root is allocated first, at address 0), while the pre-order
depth-first traversal of the roots is `[root, child]` = `[0, 1]` — the
flatten order is not pre-order. -/
theorem buildScene_preorder_counterexample :
    (buildScene (fun _ => none)
        [JNode.mk ⟨none, none, none, none, none, none, none, none⟩
          [JNode.mk ⟨none, none, none, none, none, none, none, none⟩ []]]).2.flatList
      = [1, 0] ∧
    preorderList (buildScene (fun _ => none)
        [JNode.mk ⟨none, none, none, none, none, none, none, none⟩
          [JNode.mk ⟨none, none, none, none, none, none, none, none⟩ []]]).1
      = [0, 1] ∧
    (buildScene (fun _ => none)
        [JNode.mk ⟨none, none, none, none, none, none, none, none⟩
          [JNode.mk ⟨none, none, none, none, none, none, none, none⟩ []]]).2.flatList
      ≠ preorderList (buildScene (fun _ => none)
        [JNode.mk ⟨none, none, none, none, none, none, none, none⟩
          [JNode.mk ⟨none, none, none, none, none, none, none, none⟩ []]]).1 := by
  refine ⟨rfl, rfl, ?_⟩
  intro h
  rw [show (buildScene (fun _ => none)
        [JNode.mk ⟨none, none, none, none, none, none, none, none⟩
          [JNode.mk ⟨none, none, none, none, none, none, none, none⟩ []]]).2.flatList
      = [1, 0] from rfl] at h
  rw [show preorderList (buildScene (fun _ => none)
        [JNode.mk ⟨none, none, none, none, none, none, none, none⟩
          [JNode.mk ⟨none, none, none, none, none, none, none, none⟩ []]]).1
      = [0, 1] from rfl] at h
  simp at h

/-- C2 amended: for every decoded scene, the flattened node sequence
built during construction equals the *post-order* depth-first traversal
of the root nodes in declaration order — each node appears exactly once
(the sequence has no duplicates), each node appears after all of its own
descendants, and all of one root's nodes appear before any node of the
next root (the traversal of the forest is the concatenation of the
per-root traversals in declaration order). -/
theorem buildScene_flatten_postorder (loader : String → Option ObjData)
    (roots : List JNode) :
    (buildScene loader roots).2.flatList =
      postorderList (buildScene loader roots).1 ∧
    (buildScene loader roots).2.flatList.Nodup := by
  have h := parseRoots_flatList loader roots ⟨0, [], CacheState.empty⟩
  have hm := parseRoots_meta loader roots ⟨0, [], CacheState.empty⟩
  constructor
  · simpa [buildScene] using h
  · rw [show (buildScene loader roots).2.flatList =
        postorderList (buildScene loader roots).1 by simpa [buildScene] using h]
    exact hm.2.2


/-! ## Selection exclusivity (C4) -/

theorem modifyAt_length {α : Type} (l : List α) (i : Nat) (f : α → α) :
    (modifyAt l i f).length = l.length := by
  unfold modifyAt
  cases h : l.get? i <;> simp

theorem modifyAt_get? {α : Type} (l : List α) (i : Nat) (f : α → α) (j : Nat) :
    (modifyAt l i f).get? j = if j = i then (l.get? j).map f else l.get? j := by
  unfold modifyAt
  cases h : l.get? i with
  | none =>
    by_cases hj : j = i
    · subst hj
      rw [if_pos rfl, h]
      rfl
    · rw [if_neg hj]
  | some a =>
    by_cases hj : j = i
    · subst hj
      rw [if_pos rfl, List.get?_set_eq, h]
      rfl
    · rw [if_neg hj, List.get?_set_ne _ _ (fun hh => hj hh.symm)]

/-- One TAB press on a consistent non-empty state succeeds (no
out-of-bounds access), keeps the node count, and restores the
invariant. -/
theorem keyboardTab_succeeds (st : RTState) (hne : st.flatList.length ≠ 0)
    (hinv : SelInv st) :
    ∃ st', keyboardTab st = some st' ∧
      st'.flatList.length = st.flatList.length ∧ SelInv st' := by
  obtain ⟨hlt, hsel, hflag⟩ := hinv
  have hfl_len : (modifyAt st.flatList st.selectionIndex
      (fun n => { n with isSelected := false })).length = st.flatList.length :=
    modifyAt_length _ _ _
  set fl := modifyAt st.flatList st.selectionIndex
      (fun n => { n with isSelected := false }) with hfl_def
  set si := if st.selectionIndex + 1 ≥ fl.length then 0
      else st.selectionIndex + 1 with hsi_def
  have hsilt : si < fl.length := by
    rw [hsi_def, hfl_len]
    split <;> omega
  have hn : fl.get? si = some (fl.get ⟨si, hsilt⟩) := List.get?_eq_get hsilt
  set n := fl.get ⟨si, hsilt⟩ with hn_def
  refine ⟨⟨fl.set si { n with isSelected := true }, some si, si,
      st.clockRunning⟩, ?_, ?_, ?_, ?_, ?_⟩
  · simp only [keyboardTab, hsel]
    rw [← hfl_def, ← hsi_def, hn]
  · simp [hfl_len]
  · simpa [hfl_len] using hsilt
  · rfl
  · intro j m hm
    simp only at hm
    by_cases hj : j = si
    · subst hj
      rw [List.get?_set_eq, hn] at hm
      cases hm
      simp
    · rw [List.get?_set_ne _ _ (fun hh => hj hh.symm), hfl_def,
        modifyAt_get?] at hm
      by_cases hjo : j = st.selectionIndex
      · rw [if_pos hjo] at hm
        cases ho : st.flatList.get? j with
        | none => rw [ho] at hm; cases hm
        | some m0 =>
          rw [ho] at hm
          cases hm
          simp [hj]
      · rw [if_neg hjo] at hm
        have hmf := hflag j m hm
        simp only [hjo, iff_false] at hmf
        simp [hj, hmf]

/-- Any number of TAB presses from a consistent non-empty state succeeds
and preserves the invariant and the node count. -/
theorem tabN_inv (k : Nat) :
    ∀ (st st' : RTState), st.flatList.length ≠ 0 → SelInv st →
      tabN k st = some st' → st'.flatList.length ≠ 0 ∧ SelInv st' := by
  induction k with
  | zero =>
    intro st st' hne hinv hrun
    cases hrun
    exact ⟨hne, hinv⟩
  | succ k ih =>
    intro st st' hne hinv hrun
    obtain ⟨st1, hstep, hlen, hinv1⟩ := keyboardTab_succeeds st hne hinv
    rw [show tabN (k + 1) st = tabN k st1 by simp [tabN, hstep]] at hrun
    exact ih st1 st' (by omega) hinv1 hrun

/-- The selection initialisation of `LoadScene` establishes the invariant
on any non-empty scene whose parsed nodes start unselected (as
`parseNode` builds them: the `Node` constructor leaves
`isSelected = false` and `parseNode` never sets it). -/
theorem initRT_inv (nodes : List Node) (hne : nodes ≠ [])
    (hall : ∀ n ∈ nodes, n.isSelected = false) : SelInv (initRT nodes) := by
  have hempty : nodes.isEmpty = false := by
    cases nodes with
    | nil => exact absurd rfl hne
    | cons a l => rfl
  have hform : initRT nodes =
      ⟨modifyAt nodes 0 (fun n => { n with isSelected := true }),
       some 0, 0, true⟩ := by
    simp [initRT, hempty]
  rw [hform]
  refine ⟨?_, rfl, ?_⟩
  · simp only [modifyAt_length]
    exact List.length_pos.2 hne
  · intro j n hn
    simp only at hn
    rw [modifyAt_get?] at hn
    by_cases hj : j = 0
    · subst hj
      rw [if_pos rfl] at hn
      cases ho : nodes.get? 0 with
      | none => rw [ho] at hn; cases hn
      | some m0 =>
        rw [ho] at hn
        cases hn
        simp
    · rw [if_neg hj] at hn
      have := hall n (List.get?_mem hn)
      simp [hj, this]

/-- C4: after scene construction (nodes start unselected, `LoadScene`
selects the head) and any number of TAB presses that execute without
undefined behaviour, a node's `isSelected` flag holds exactly at
position `selectionIndex % length` of the flattened sequence — so on a
non-empty scene exactly one node is selected, the one at the cursor
modulo the length, and on an empty scene zero nodes are (vacuously:
there are no positions). -/
theorem selection_exclusive (nodes : List Node) (k : Nat) (st' : RTState)
    (hall : ∀ n ∈ nodes, n.isSelected = false)
    (hrun : tabN k (initRT nodes) = some st') :
    ∀ j n, st'.flatList.get? j = some n →
      (n.isSelected = true ↔ j = st'.selectionIndex % st'.flatList.length) := by
  by_cases hne : nodes = []
  · subst hne
    cases k with
    | zero =>
      cases hrun
      intro j n hn
      simp [initRT] at hn
    | succ k =>
      rw [show tabN (k + 1) (initRT []) = none from rfl] at hrun
      cases hrun
  · have hempty : nodes.isEmpty = false := by
      cases nodes with
      | nil => exact absurd rfl hne
      | cons a l => rfl
    have hform : initRT nodes =
        ⟨modifyAt nodes 0 (fun n => { n with isSelected := true }),
         some 0, 0, true⟩ := by
      simp [initRT, hempty]
    have h0 : (initRT nodes).flatList.length ≠ 0 := by
      rw [hform]
      simp only [modifyAt_length]
      exact fun h => hne (List.length_eq_zero.1 h)
    obtain ⟨hne', hlt, hsel, hflag⟩ :=
      tabN_inv k (initRT nodes) st' h0 (initRT_inv nodes hne hall) hrun
    intro j n hn
    rw [Nat.mod_eq_of_lt hlt]
    exact hflag j n hn

/-- Witness for C4: two default nodes, three TAB presses — the selection
ends on the second node (index 1 = 1 mod 2). -/
theorem selection_exclusive_witness :
    (∀ n ∈ [({} : Node), {}], n.isSelected = false) ∧
    tabN 3 (initRT [({} : Node), {}]) =
      some ⟨[{}, { isSelected := true }], some 1, 1, true⟩ ∧
    ∀ j n, (RTState.mk [{}, { isSelected := true }] (some 1) 1
        true).flatList.get? j = some n →
      (n.isSelected = true ↔ j = (RTState.mk [{}, { isSelected := true }]
        (some 1) 1 true).selectionIndex %
          (RTState.mk [{}, { isSelected := true }] (some 1) 1
            true).flatList.length) := by
  have hall : ∀ n ∈ [({} : Node), {}], n.isSelected = false := by
    intro n hn
    have hn' : n = ({} : Node) := by
      rcases List.mem_cons.1 hn with h | h
      · exact h
      · simpa using h
    rw [hn']
  exact ⟨hall, rfl, selection_exclusive [{}, {}] 3 _ hall rfl⟩
/-! ## Empty-scene selection (C6) -/

/-- C6 (code defect): on an empty scene, complex1.cpp's TAB handler
increments the cursor, wraps it to 0 (`0 ≥ size` holds for size 0), and
then reads `flatList[0]` from the empty vector — an out-of-bounds
`std::vector` access (modelled as `none`), not the claimed silent no-op.
main.cpp's handler, by contrast, early-returns on its null selection
(which is what an empty scene implies) with all state unchanged. -/
theorem selectNext_empty_out_of_bounds :
    keyboardTab (initRT []) = none ∧
    keyboardMain '\t' ⟨[], none, 0, true, false, 0⟩ =
      some ⟨[], none, 0, true, false, 0⟩ :=
  ⟨rfl, rfl⟩

/-! ## Transform edits with no selection (C10) -/

/-- C10: with no node selected, every move/rotate/scale key (and the
scale keys `u`/`j` of main.cpp, which complex1.cpp ignores) leaves the
entire modelled state of both programs unchanged, dereferencing nothing:
complex1.cpp guards every edit with `if (selectedNode)`, main.cpp
early-returns at the top of its handler. -/
theorem transform_keys_noop (key : Char) (st : RTState) (stm : MainState)
    (hkey : key ∈ ['q', 'a', 'w', 's', 'e', 'd', 'r', 'f', 't', 'g', 'y',
      'h', 'u', 'j'])
    (hsel : st.selectedNode = none) (hselm : stm.selectedObject = none) :
    keyboardC1 key st = some st ∧ keyboardMain key stm = some stm := by
  constructor
  · fin_cases hkey <;> simp [keyboardC1, modifySelected, hsel]
  · simp [keyboardMain, hselm]

/-- Witness for C10: the key `q` on empty states with null selections. -/
theorem transform_keys_noop_witness :
    'q' ∈ ['q', 'a', 'w', 's', 'e', 'd', 'r', 'f', 't', 'g', 'y', 'h',
      'u', 'j'] ∧
    (RTState.mk [] none 0 true).selectedNode = none ∧
    (MainState.mk [] none 0 true false 0).selectedObject = none ∧
    (keyboardC1 'q' ⟨[], none, 0, true⟩ = some ⟨[], none, 0, true⟩ ∧
      keyboardMain 'q' ⟨[], none, 0, true, false, 0⟩ =
        some ⟨[], none, 0, true, false, 0⟩) :=
  ⟨by decide, rfl, rfl, transform_keys_noop 'q' _ _ (by decide) rfl rfl⟩

/-! ## Animation under pause and accumulation (C9, C5) -/

theorem idleC1_paused (st : RTState) (h : st.clockRunning = false) :
    idleC1 st = st := by
  simp [idleC1, h]

theorem idleMain_paused (stm : MainState) (h : stm.isClockAnimating = false) :
    (idleMain stm).sceneObjects = stm.sceneObjects ∧
    (idleMain stm).isClockAnimating = false := by
  simp only [idleMain, h, Bool.false_eq_true, if_false]
  split <;> simp [h]

/-- C9: with the animation paused, any number of `idle` ticks leaves
every node of complex1.cpp exactly unchanged (the whole runtime state is
a fixed point), and every object of main.cpp exactly unchanged (only the
camera's room-spin angle may move, which is not a node field). -/
theorem animation_pause_idempotent (k : Nat) (st : RTState) (stm : MainState)
    (hc : st.clockRunning = false) (hm : stm.isClockAnimating = false) :
    idleC1^[k] st = st ∧ (idleMain^[k] stm).sceneObjects = stm.sceneObjects := by
  constructor
  · induction k with
    | zero => rfl
    | succ k ih => rw [Function.iterate_succ_apply, idleC1_paused st hc, ih]
  · have h : ∀ m, (idleMain^[m] stm).sceneObjects = stm.sceneObjects ∧
        (idleMain^[m] stm).isClockAnimating = false := by
      intro m
      induction m with
      | zero => exact ⟨rfl, hm⟩
      | succ m ih =>
        rw [Function.iterate_succ_apply']
        obtain ⟨h1, h2⟩ := ih
        obtain ⟨h3, h4⟩ := idleMain_paused _ h2
        exact ⟨h3.trans h1, h4⟩
    exact (h k).1

/-- Witness for C9: two ticks on paused single-object states. -/
theorem animation_pause_idempotent_witness :
    (RTState.mk [{ isAnimated := true, animSpeed := 2 }] none 0
        false).clockRunning = false ∧
    (MainState.mk [{ spinAnimation := true, spinSpeed := 2 }] none 0 false
        false 0).isClockAnimating = false ∧
    (idleC1^[2] ⟨[{ isAnimated := true, animSpeed := 2 }], none, 0, false⟩ =
        ⟨[{ isAnimated := true, animSpeed := 2 }], none, 0, false⟩ ∧
      (idleMain^[2] ⟨[{ spinAnimation := true, spinSpeed := 2 }], none, 0,
          false, false, 0⟩).sceneObjects =
        (MainState.mk [{ spinAnimation := true, spinSpeed := 2 }] none 0 false
          false 0).sceneObjects) :=
  ⟨rfl, rfl, animation_pause_idempotent 2 _ _ rfl rfl⟩

theorem animStepC1_iterate (k : Nat) :
    ∀ (n : Node), n.isAnimated = true →
      animStepC1^[k] n = { n with rz := n.rz + k * n.animSpeed } := by
  induction k with
  | zero =>
    intro n h
    simp
  | succ k ih =>
    intro n h
    rw [Function.iterate_succ_apply,
      show animStepC1 n = { n with rz := n.rz + n.animSpeed } by
        simp [animStepC1, h],
      ih { n with rz := n.rz + n.animSpeed } h]
    simp only [Node.mk.injEq, and_true, true_and]
    push_cast
    ring

theorem animStepMain_iterate (k : Nat) :
    ∀ (o : Object), o.spinAnimation = true →
      animStepMain^[k] o = { o with rx := o.rx - k * o.spinSpeed } := by
  induction k with
  | zero =>
    intro o h
    simp
  | succ k ih =>
    intro o h
    rw [Function.iterate_succ_apply,
      show animStepMain o = { o with rx := o.rx - o.spinSpeed } by
        simp [animStepMain, h],
      ih { o with rx := o.rx - o.spinSpeed } h]
    simp only [Object.mk.injEq, and_true, true_and]
    push_cast
    ring

theorem idleC1_iterate_running (k : Nat) :
    ∀ (st : RTState), st.clockRunning = true →
      idleC1^[k] st = { st with flatList := st.flatList.map animStepC1^[k] } := by
  induction k with
  | zero =>
    intro st h
    simp
  | succ k ih =>
    intro st h
    rw [Function.iterate_succ_apply,
      show idleC1 st = { st with flatList := st.flatList.map animStepC1 } by
        simp [idleC1, h],
      ih { st with flatList := st.flatList.map animStepC1 } h]
    simp [List.map_map, Function.iterate_succ]

theorem idleMain_running (stm : MainState) (h : stm.isClockAnimating = true) :
    (idleMain stm).sceneObjects = stm.sceneObjects.map animStepMain ∧
    (idleMain stm).isClockAnimating = true := by
  simp only [idleMain, h, if_true]
  split <;> simp [h]

theorem idleMain_iterate_running (k : Nat) :
    ∀ (stm : MainState), stm.isClockAnimating = true →
      (idleMain^[k] stm).sceneObjects = stm.sceneObjects.map animStepMain^[k] ∧
      (idleMain^[k] stm).isClockAnimating = true := by
  induction k with
  | zero =>
    intro stm h
    simpa using h
  | succ k ih =>
    intro stm h
    rw [Function.iterate_succ_apply']
    obtain ⟨h1, h2⟩ := ih stm h
    obtain ⟨h3, h4⟩ := idleMain_running _ h2
    refine ⟨?_, h4⟩
    rw [h3, h1, List.map_map, Function.iterate_succ']

/-- C5 counterexample: a main.cpp object with `spinAnimation = true` and
`spinSpeed = 2`, ticked 5 times while unpaused, ends with `rx = -10`:
its designated rotation axis moved by −10 degrees, not the claimed
+10 (the handler subtracts the speed). -/
theorem idleMain_accumulation_counterexample :
    (idleMain^[5] ⟨[{ spinAnimation := true, spinSpeed := 2 }], none, 0,
        true, false, 0⟩).sceneObjects.get? 0 =
      some { spinAnimation := true, spinSpeed := 2, rx := -10 } ∧
    ({ spinAnimation := true, spinSpeed := 2, rx := -10 } : Object).rx ≠
      ({ spinAnimation := true, spinSpeed := 2 } : Object).rx + 10 := by
  constructor
  · rw [(idleMain_iterate_running 5 _ rfl).1]
    simp only [List.map_cons, List.map_nil, List.get?]
    rw [animStepMain_iterate 5 _ rfl]
    simp only [Option.some.injEq, Object.mk.injEq, and_true, true_and]
    norm_num
  · simp only []
    norm_num

/-- C5 amended: a node with `animated = true` and speed 2, ticked 5
times while unpaused, accumulates exactly +10 degrees on `rz` — its
designated axis — with `rx`/`ry` untouched in complex1.cpp; in main.cpp
the designated axis is `rx` and the handler subtracts, so the object
accumulates exactly −10 degrees on `rx` with `ry`/`rz` untouched. -/
theorem animation_accumulation (st : RTState) (stm : MainState)
    (i j : Nat) (n : Node) (o : Object)
    (hc : st.clockRunning = true) (hm : stm.isClockAnimating = true)
    (hn : st.flatList.get? i = some n) (han : n.isAnimated = true)
    (hs : n.animSpeed = 2)
    (ho : stm.sceneObjects.get? j = some o) (hao : o.spinAnimation = true)
    (hos : o.spinSpeed = 2) :
    (idleC1^[5] st).flatList.get? i = some { n with rz := n.rz + 10 } ∧
    (idleMain^[5] stm).sceneObjects.get? j =
      some { o with rx := o.rx - 10 } := by
  constructor
  · rw [idleC1_iterate_running 5 st hc]
    simp only [List.get?_map, hn]
    rw [show Option.map animStepC1^[5] (some n) = some (animStepC1^[5] n) from
        rfl, animStepC1_iterate 5 n han, hs]
    simp only [Option.some.injEq, Node.mk.injEq, and_true, true_and]
    norm_num
  · rw [(idleMain_iterate_running 5 stm hm).1]
    simp only [List.get?_map, ho]
    rw [show Option.map animStepMain^[5] (some o) = some (animStepMain^[5] o)
        from rfl, animStepMain_iterate 5 o hao, hos]
    simp only [Option.some.injEq, Object.mk.injEq, and_true, true_and]
    norm_num

/-- Witness for C5 at concrete single-node states. -/
theorem animation_accumulation_witness :
    (RTState.mk [{ isAnimated := true, animSpeed := 2 }] none 0
        true).clockRunning = true ∧
    (MainState.mk [{ spinAnimation := true, spinSpeed := 2 }] none 0 true
        false 0).isClockAnimating = true ∧
    ((idleC1^[5] ⟨[{ isAnimated := true, animSpeed := 2 }], none, 0,
          true⟩).flatList.get? 0 =
        some { ({ isAnimated := true, animSpeed := 2 } : Node) with
          rz := ({ isAnimated := true, animSpeed := 2 } : Node).rz + 10 } ∧
      (idleMain^[5] ⟨[{ spinAnimation := true, spinSpeed := 2 }], none, 0,
          true, false, 0⟩).sceneObjects.get? 0 =
        some { ({ spinAnimation := true, spinSpeed := 2 } : Object) with
          rx := ({ spinAnimation := true, spinSpeed := 2 } : Object).rx - 10 }) :=
  ⟨rfl, rfl,
    animation_accumulation _ _ 0 0 _ _ rfl rfl rfl rfl rfl rfl rfl rfl⟩

end Engine3D
